import Mathlib

/-!
Verification development for the finance_app repository.

The definitions below are shallow embeddings of the repository's core logic:

* src/lib/groq.ts (src/unnamed/part_005): the text-understanding adapter
  (categorizeExpense, parseExpenseFromText, generateFinancialInsights).
  The external Groq provider call is modelled as an oracle parameter of type
  Except: an error value models a thrown provider error or an unparseable
  JSON response (both land in the same catch block in the source), and an
  ok value carries the fields of the successfully parsed JSON object.
* src/lib/rate-limit.ts (src/unnamed/part_006): the fixed-window rate
  limiter with its in-memory store and lazy cleanup sweep.
* src/app/api/summary/route.ts: period resolution, net-income totals,
  monthly-trend bucketing and response headers.

JavaScript numbers that hold money or percentages are modelled as rationals
(the spec mandates a drift-free decimal representation); timestamps and
calendar fields are modelled as integers.
-/

/-! ### Digit and string primitives shared by the embeddings -/

/-- Numeric value of an ASCII digit character (JS charCode arithmetic). -/
def digitVal (c : Char) : ℕ := c.toNat - 48

/-- Splits a character list into its maximal leading run of ASCII digits and
the remainder, as a JS regex would match a leading \d* . -/
def splitDigits : List Char → List Char × List Char
  | [] => ([], [])
  | c :: cs =>
    if c.isDigit then
      let p := splitDigits cs
      (c :: p.1, p.2)
    else ([], c :: cs)

/-- Value of a most-significant-first digit list, as parseInt accumulates it. -/
def digitsToNat (ds : List Char) : ℕ := ds.foldl (fun a c => a * 10 + digitVal c) 0

/-- Embeds JS parseInt applied to a leading digit run: none models NaN
(no digits at the scan position). -/
def parseNatLead (l : List Char) : Option ℕ :=
  match splitDigits l with
  | ([], _) => none
  | (ds, _) => some (digitsToNat ds)

/-- Embeds JS parseInt on a string: optional sign, then leading decimal
digits; none models NaN. -/
def parseIntJS (s : String) : Option ℤ :=
  match s.toList with
  | [] => none
  | c :: rest =>
    if c = '-' then
      match parseNatLead rest with
      | some n => some (-(n : ℤ))
      | none => none
    else if c = '+' then
      match parseNatLead rest with
      | some n => some ((n : ℤ))
      | none => none
    else
      match parseNatLead (c :: rest) with
      | some n => some ((n : ℤ))
      | none => none

/-- Embeds the JS truthiness idiom (x || d) for an optional string field:
a missing value or the empty string falls back to the default. -/
def jsOrStr (o : Option String) (d : String) : String :=
  match o with
  | some s => if s = "" then d else s
  | none => d

/-- Embeds the JS truthiness idiom (x || d) for an optional integer field:
a missing value or 0 falls back to the default. -/
def jsOrInt (o : Option ℤ) (d : ℤ) : ℤ :=
  match o with
  | some n => if n = 0 then d else n
  | none => d

/-! ### Text-understanding adapter: categorizeExpense (src/lib/groq.ts) -/

/-- The fixed ten-key category table of src/lib/groq.ts. -/
def validCategoryKeys : List String :=
  ["foodDining", "transportation", "shopping", "entertainment", "billsUtilities",
   "healthcare", "travel", "education", "business", "other"]

/-- Embeds the JS idiom arr[i] || 'other' for the category table: a negative
or out-of-range index reads undefined, which the || turns into "other". -/
def categoryAtIdx (i : ℤ) : String :=
  if h : 0 ≤ i ∧ i < (validCategoryKeys.length : ℤ) then
    validCategoryKeys.get ⟨i.toNat, by omega⟩
  else "other"

/-- Embeds response.match followed by parseInt in categorizeExpense: the value
of the first run of digits anywhere in the string, none when the string has
no digit. -/
def firstNumberToken : List Char → Option ℕ
  | [] => none
  | c :: cs =>
    if c.isDigit then
      some (digitsToNat (c :: (splitDigits cs).1))
    else firstNumberToken cs

/-- Embeds categorizeExpense of src/lib/groq.ts. The provider call is the
oracle argument: the source awaits generateAI outside of any try block, so a
provider error propagates to the caller unchanged (modelled by Except.error).
On a provider response, the first integer in the response minus one indexes
the category table, and any parse failure (no digit: index 9) or
out-of-range digit yields "other". The locale argument only shapes the
prompt in the source and cannot affect the returned key. -/
def categorizeExpense (_description : String) (_locale : String)
    (providerOutcome : Except String String) : Except String String :=
  match providerOutcome with
  | .error e => .error e
  | .ok response =>
    let categoryIndex : ℤ :=
      match firstNumberToken response.toList with
      | some n => (n : ℤ) - 1
      | none => 9
    .ok (categoryAtIdx categoryIndex)

/-- Reports whether an adapter outcome is a normal return of one of the ten
enumerated category keys (the guarantee claimed by the spec). -/
def isValidKeyOutcome (r : Except String String) : Bool :=
  match r with
  | .ok k => validCategoryKeys.contains k
  | .error _ => false

/-! ### Text-understanding adapter: parseExpenseFromText (src/lib/groq.ts) -/

/-- Structured result of parseExpenseFromText. -/
structure ParsedExpense where
  amount : Option ℚ
  description : String
  category : Option String
  date : String
deriving DecidableEq, Repr

/-- Fields of the provider's JSON object for parse-expense, as far as the
success path of the source reads them. -/
structure ParsedJson where
  amount : Option ℚ
  description : Option String
  categoryNumber : Option ℤ
  date : Option String

/-- Embeds the fallback regex text.match against \$?(\d+\.?\d*): scans for the
first position where an optional dollar sign precedes at least one digit and
returns the numeric value of the captured token (digits, optional dot, more
digits), as parseFloat reads it; none when no such token occurs. -/
def scanAmountChars : List Char → Option ℚ
  | [] => none
  | c :: cs =>
    if c.isDigit then
      some (numTokenValue (c :: cs))
    else if c = '$' then
      match cs with
      | d :: _ => if d.isDigit then some (numTokenValue cs) else scanAmountChars cs
      | [] => none
    else scanAmountChars cs
where
  /-- Value of the token \d+\.?\d* starting at a digit position. -/
  numTokenValue (l : List Char) : ℚ :=
    let p := splitDigits l
    match p.2 with
    | '.' :: r2 =>
      let f := splitDigits r2
      (digitsToNat p.1 : ℚ) + (digitsToNat f.1 : ℚ) / 10 ^ f.1.length
    | _ => (digitsToNat p.1 : ℚ)

/-- Embeds the catch-block fallback of parseExpenseFromText: first
currency-like token as amount, raw text as description, null category,
today's date. -/
def parseExpenseFallback (text : String) (today : String) : ParsedExpense :=
  { amount := scanAmountChars text.toList
  , description := text
  , category := none
  , date := today }

/-- Embeds parseExpenseFromText of src/lib/groq.ts. The oracle argument is
the outcome of generateAI followed by JSON.parse: an error models a thrown
provider error or an unparseable response, both handled by the same catch
block. On success, a falsy amount (0 or absent) becomes null, a falsy
categoryNumber (0 or absent) defaults to 10 before the table lookup, a falsy
description defaults to the input text and a falsy date to today. -/
def parseExpenseFromText (text : String) (today : String)
    (outcome : Except Unit ParsedJson) : ParsedExpense :=
  match outcome with
  | .error _ => parseExpenseFallback text today
  | .ok parsed =>
    let categoryIndex : ℤ := jsOrInt parsed.categoryNumber 10 - 1
    let category := categoryAtIdx categoryIndex
    { amount :=
        match parsed.amount with
        | some v => if v = 0 then none else some v
        | none => none
    , description := jsOrStr parsed.description text
    , category := some category
    , date := jsOrStr parsed.date today }

/-! ### Rate Governor (src/lib/rate-limit.ts) -/

/-- One entry of the in-memory rate-limit store. -/
structure RateLimitEntry where
  count : ℕ
  resetTime : ℤ
deriving DecidableEq, Repr

/-- Rate limit configuration. -/
structure RateLimitConfig where
  maxRequests : ℕ
  windowSeconds : ℕ
deriving DecidableEq, Repr

/-- Result of one rateLimit check. remaining is an integer because the source
computes maxRequests - 1 with plain JS arithmetic. -/
structure RateLimitResult where
  success : Bool
  remaining : ℤ
  resetIn : ℤ
deriving DecidableEq, Repr

/-- The module-level mutable state of src/lib/rate-limit.ts: the Map used as
store (insertion-ordered association list, as a JS Map iterates) and the
lastCleanup timestamp. Timestamps are in milliseconds. -/
structure RLState where
  store : List (String × RateLimitEntry)
  lastCleanup : ℤ
deriving DecidableEq, Repr

/-- Embeds Map.get. -/
def storeGet (store : List (String × RateLimitEntry)) (k : String) : Option RateLimitEntry :=
  match store with
  | [] => none
  | p :: rest => if p.1 = k then some p.2 else storeGet rest k

/-- Embeds Map.set: replaces in place when the key exists, appends otherwise. -/
def storeSet (store : List (String × RateLimitEntry)) (k : String) (e : RateLimitEntry) :
    List (String × RateLimitEntry) :=
  match store with
  | [] => [(k, e)]
  | p :: rest => if p.1 = k then (k, e) :: rest else p :: storeSet rest k e

/-- The CLEANUP_INTERVAL constant (one minute, in milliseconds). -/
def CLEANUP_INTERVAL : ℤ := 60000

/-- Embeds the lazy cleanup sweep: at most once per CLEANUP_INTERVAL it drops
every store entry whose resetTime lies strictly in the past. -/
def rlCleanup (st : RLState) (now : ℤ) : RLState :=
  if now - st.lastCleanup < CLEANUP_INTERVAL then st
  else
    { store := st.store.filter (fun p => !(p.2.resetTime < now))
    , lastCleanup := now }

/-- Embeds the rateLimit function of src/lib/rate-limit.ts as an explicit
state transformer; now is the Date.now() timestamp of the call. Math.ceil of
the nonnegatively-divided millisecond difference is embedded as
(x + 999) / 1000 with floor division, which agrees with ceiling division for
every integer x. -/
def rateLimit (identifier endpoint : String) (config : RateLimitConfig) (now : ℤ)
    (st : RLState) : RateLimitResult × RLState :=
  let st1 := rlCleanup st now
  let key := identifier ++ ":" ++ endpoint
  let windowMs : ℤ := (config.windowSeconds : ℤ) * 1000
  match storeGet st1.store key with
  | none =>
    (⟨true, (config.maxRequests : ℤ) - 1, (config.windowSeconds : ℤ)⟩,
     { st1 with store := storeSet st1.store key ⟨1, now + windowMs⟩ })
  | some entry =>
    if entry.resetTime < now then
      (⟨true, (config.maxRequests : ℤ) - 1, (config.windowSeconds : ℤ)⟩,
       { st1 with store := storeSet st1.store key ⟨1, now + windowMs⟩ })
    else if config.maxRequests ≤ entry.count then
      (⟨false, 0, (entry.resetTime - now + 999) / 1000⟩, st1)
    else
      (⟨true, (config.maxRequests : ℤ) - (entry.count + 1 : ℕ),
        (entry.resetTime - now + 999) / 1000⟩,
       { st1 with store := storeSet st1.store key ⟨entry.count + 1, entry.resetTime⟩ })

/-- Runs a sequence of rateLimit calls against one key, collecting results. -/
def rlRun (identifier endpoint : String) (config : RateLimitConfig) :
    List ℤ → RLState → List RateLimitResult
  | [], _ => []
  | t :: ts, st =>
    let r := rateLimit identifier endpoint config t st
    r.1 :: rlRun identifier endpoint config ts r.2

/-- Runs a sequence of rateLimit calls with arbitrary keys under one config,
returning the final state. -/
def rlRunAll (config : RateLimitConfig) : List (String × String × ℤ) → RLState → RLState
  | [], st => st
  | c :: cs, st => rlRunAll config cs (rateLimit c.1 c.2.1 config c.2.2 st).2

/-- The store invariant of the amended C9 claim: every entry holds a count
between 1 and the configured maximum. -/
def StoreInv (config : RateLimitConfig) (store : List (String × RateLimitEntry)) : Prop :=
  ∀ p ∈ store, 1 ≤ p.2.count ∧ p.2.count ≤ config.maxRequests

/-- The RATE_LIMITS.heavy preset used by the summary endpoint. -/
def RATE_LIMITS_heavy : RateLimitConfig := ⟨30, 60⟩

/-- Embeds getRateLimitHeaders of src/lib/rate-limit.ts. -/
def getRateLimitHeaders (result : RateLimitResult) (config : RateLimitConfig) :
    List (String × String) :=
  [("X-RateLimit-Limit", Nat.repr config.maxRequests),
   ("X-RateLimit-Remaining", result.remaining.repr),
   ("X-RateLimit-Reset", result.resetIn.repr)]

/-- Status code and headers of an HTTP response, the part of NextResponse the
claims are about. -/
structure HttpResponse where
  status : ℕ
  headers : List (String × String)
deriving DecidableEq, Repr

/-- Embeds the rate-limit gate of GET /api/summary: a denied check returns a
429 with the rate-limit headers; an allowed request proceeds and the success
response at the end of the handler carries only the Cache-Control header. -/
def summaryRouteResponse (rl : RateLimitResult) : HttpResponse :=
  if rl.success = false then
    ⟨429, getRateLimitHeaders rl RATE_LIMITS_heavy⟩
  else
    ⟨200, [("Cache-Control", "private, s-maxage=60, stale-while-revalidate=120")]⟩

/-- Looks a header up by name. -/
def headerLookup (r : HttpResponse) (name : String) : Option String :=
  match r.headers.find? (fun p => p.1 = name) with
  | some p => some p.2
  | none => none

/-! ### Text-understanding adapter: generateFinancialInsights (src/lib/groq.ts) -/

/-- Left-pads a digit string with zeros to the requested width, as toFixed
renders a fractional part. -/
def padZeros (width : ℕ) (s : String) : String :=
  String.mk (List.replicate (width - s.length) '0') ++ s

/-- Embeds Number.prototype.toFixed on an exact rational: rounds
|q| * 10 ^ digits to the nearest integer (ties away from zero) and renders
sign, integer part, and a zero-padded fractional part of the given width. -/
def toFixed (q : ℚ) (digits : ℕ) : String :=
  let m : ℕ := (⌊|q| * 10 ^ digits + 1 / 2⌋).toNat
  let intPart := m / 10 ^ digits
  let fracPart := m % 10 ^ digits
  (if q < 0 then "-" else "") ++ Nat.repr intPart ++
    (if digits = 0 then "" else "." ++ padZeros digits (Nat.repr fracPart))

/-- Embeds JS parseFloat on the magnitude part of a string: leading digits,
an optional dot, and more digits; none models NaN. -/
def parseFloatAbs (l : List Char) : Option ℚ :=
  let p := splitDigits l
  match p.2 with
  | '.' :: r2 =>
    let f := splitDigits r2
    if p.1 = [] ∧ f.1 = [] then none
    else some ((digitsToNat p.1 : ℚ) + (digitsToNat f.1 : ℚ) / 10 ^ f.1.length)
  | _ => if p.1 = [] then none else some ((digitsToNat p.1 : ℚ))

/-- Embeds JS parseFloat on a string: optional sign then a decimal literal. -/
def parseFloatQ (s : String) : Option ℚ :=
  match s.toList with
  | [] => none
  | c :: rest =>
    if c = '-' then (parseFloatAbs rest).map (fun q => -q)
    else if c = '+' then parseFloatAbs rest
    else parseFloatAbs (c :: rest)

/-- Rounding to one decimal place with ties away from zero: the exact value
that parseFloat recovers from a toFixed(1) rendering. -/
def round1 (q : ℚ) : ℚ :=
  if q < 0 then -((⌊(-q) * 10 + 1 / 2⌋ : ℚ) / 10) else (⌊q * 10 + 1 / 2⌋ : ℚ) / 10

/-- One row of the expensesByCategory aggregate fed to the insights
generator. -/
structure CatAgg where
  category : String
  total : ℚ
  count : ℕ
deriving DecidableEq, Repr

/-- The numeric aggregates destructured at the top of
generateFinancialInsights; the source defaults the two month totals to 0
when absent, so they are plain fields here. -/
structure InsightData where
  totalExpenses : ℚ
  totalIncome : ℚ
  expensesByCategory : List CatAgg
  monthlyTrend : List (String × ℚ)
  previousMonthTotal : ℚ
  currentMonthTotal : ℚ

/-- The insight report shape returned to callers. -/
structure InsightReport where
  summary : String
  trends : List String
  recommendations : List String
  alerts : List String
deriving DecidableEq, Repr

/-- Fields of a successfully parsed provider JSON object for insights; none
in a list field models a value that fails the Array.isArray check. -/
structure InsightJson where
  summary : Option String
  trends : Option (List String)
  recommendations : Option (List String)
  alerts : Option (List String)

/-- Embeds the savingsRate metric: a percentage formatted with toFixed(1),
or the literal string 0 when there is no income. -/
def savingsRateStr (totalIncome totalExpenses : ℚ) : String :=
  if 0 < totalIncome then toFixed ((totalIncome - totalExpenses) / totalIncome * 100) 1
  else "0"

/-- Embeds the monthlyChange metric: the month-over-month percentage change
formatted with toFixed(1), or the literal string 0 when the previous month
total is not positive. -/
def monthlyChangeStr (previousMonthTotal currentMonthTotal : ℚ) : String :=
  if 0 < previousMonthTotal then
    toFixed ((currentMonthTotal - previousMonthTotal) / previousMonthTotal * 100) 1
  else "0"

/-- Embeds the in-place sort of expensesByCategory by descending total
(the source's Array.prototype.sort with comparator b.total - a.total). -/
def sortCategories (l : List CatAgg) : List CatAgg :=
  List.insertionSort (fun a b => b.total ≤ a.total) l

/-- Embeds the string interpolation of a JS number that is known to carry at
most one decimal digit (the Math.abs(parseFloat(monthlyChange)) template
slot): integers print bare, other values print with one decimal. -/
def jsNumRender1 (q : ℚ) : String :=
  if q.den = 1 then q.num.repr else toFixed q 1

/-- Embeds the catch-block fallback of generateFinancialInsights, including
the re-parse of the formatted monthlyChange string that drives the increase
and decrease branches, the stability trend and the alert threshold. The
source's parseFloat lands on strings this module itself formatted, so the
none case of the re-parse (never reached on those strings) is read as 0,
matching the falsity of every NaN comparison. -/
def insightsFallback (d : InsightData) : InsightReport :=
  let mc := monthlyChangeStr d.previousMonthTotal d.currentMonthTotal
  let mcv := (parseFloatQ mc).getD 0
  { summary :=
      "You\x27ve spent $" ++ toFixed d.totalExpenses 2 ++ " with a savings rate of " ++
        savingsRateStr d.totalIncome d.totalExpenses ++ "%. " ++
        (if 0 < mcv then "Your spending increased by " ++ mc ++ "% this month."
         else "Your spending decreased by " ++ jsNumRender1 |mcv| ++ "% this month.")
  , trends :=
      ["Top spending category is " ++
         jsOrStr ((sortCategories d.expensesByCategory).head?.map CatAgg.category) "Unknown",
       if 20 < mcv then "Significant increase in spending this month"
       else "Spending is relatively stable"]
  , recommendations :=
      ["Review your top spending categories for optimization opportunities",
       "Set monthly budgets for each category",
       "Track expenses regularly to stay on target"]
  , alerts :=
      if 30 < mcv then
        ["Spending increased significantly this month - review for unusual expenses"]
      else [] }

/-- Embeds generateFinancialInsights: on a successfully parsed provider
response, falsy summary and non-array fields are coerced; on a provider
error or unparseable response, the deterministic fallback is returned. -/
def generateFinancialInsights (d : InsightData) (outcome : Except Unit InsightJson) :
    InsightReport :=
  match outcome with
  | .ok parsed =>
    { summary := jsOrStr parsed.summary "No summary available"
    , trends := parsed.trends.getD []
    , recommendations := parsed.recommendations.getD []
    , alerts := parsed.alerts.getD [] }
  | .error _ => insightsFallback d

/-! ### Summary route: totals and net income (src/app/api/summary/route.ts) -/

/-- Invoice status enumeration of the data model. -/
inductive InvoiceStatus where
  | PENDING | PAID | OVERDUE | CANCELLED
deriving DecidableEq, Repr

/-- An invoice row as the summary aggregation reads it. -/
structure InvoiceRec where
  amount : ℚ
  status : InvoiceStatus
deriving DecidableEq, Repr

/-- Embeds a Prisma aggregate _sum.amount followed by the || 0 guard: the sum
of the amounts, with the null sum of an empty row set read as 0. -/
def aggAmount (amounts : List ℚ) : ℚ := amounts.foldl (fun a x => a + x) 0

/-- Amount-and-count total for one entry kind. -/
structure KindTotal where
  amount : ℚ
  count : ℕ
deriving DecidableEq, Repr

/-- The totals block of the summary response. -/
structure SummaryTotals where
  expenses : KindTotal
  incomes : KindTotal
  invoices : KindTotal
  netIncome : ℚ
deriving DecidableEq, Repr

/-- Embeds the totals computation of GET /api/summary (lines 225-318): the
three per-kind aggregates over the period-scoped rows, and
netIncome = totalIncomeAmount + totalInvoiceAmount - totalExpenseAmount,
where totalInvoiceAmount sums every invoice row of the period regardless of
its status. -/
def summaryTotals (expenses incomes : List ℚ) (invoices : List InvoiceRec) : SummaryTotals :=
  let totalInvoiceAmount := aggAmount (invoices.map InvoiceRec.amount)
  let totalIncomeAmount := aggAmount incomes
  let totalExpenseAmount := aggAmount expenses
  { expenses := ⟨totalExpenseAmount, expenses.length⟩
  , incomes := ⟨totalIncomeAmount, incomes.length⟩
  , invoices := ⟨totalInvoiceAmount, invoices.length⟩
  , netIncome := totalIncomeAmount + totalInvoiceAmount - totalExpenseAmount }

/-- The amount sum restricted to invoices with status PAID, the quantity the
spec text says enters the net income. This definition follows the spec's
words, for comparison with the source's summaryTotals. -/
def paidInvoiceTotal (invoices : List InvoiceRec) : ℚ :=
  aggAmount ((invoices.filter (fun i => i.status = InvoiceStatus.PAID)).map InvoiceRec.amount)

/-! ### Summary route: period resolution (src/app/api/summary/route.ts) -/

/-- A calendar date-time with integer fields, standing for a JS Date value
(month is 1-based here; conversions from 0-based JS month indices happen in
the constructors below). -/
structure DateTimeRec where
  year : ℤ
  month : ℤ
  day : ℤ
  hour : ℤ
  minute : ℤ
  second : ℤ
deriving DecidableEq, Repr

/-- Embeds the two-digit-year rule of the Date constructor: integer years 0
through 99 denote 1900 + year. -/
def quirkYear (y : ℤ) : ℤ := if 0 ≤ y ∧ y ≤ 99 then y + 1900 else y

/-- Embeds ECMAScript MakeDay month normalization: a year and an arbitrary
integer 0-based month index become a calendar year and 1-based month by
floor division (Int division by a positive literal is floor division). -/
def normYM (y mIdx : ℤ) : ℤ × ℤ := (quirkYear y + mIdx / 12, mIdx % 12 + 1)

/-- Leap year rule of the proleptic Gregorian calendar used by JS dates. -/
def isLeapYear (y : ℤ) : Bool := (y % 4 = 0 ∧ ¬y % 100 = 0) ∨ y % 400 = 0

/-- Number of days of a (normalized) month. -/
def daysInMonth (y m : ℤ) : ℤ :=
  if m = 2 then (if isLeapYear y then 29 else 28)
  else if m = 4 ∨ m = 6 ∨ m = 9 ∨ m = 11 then 30
  else 31

/-- Embeds new Date(y, mIdx, 1, 0, 0, 0): the first instant the summary route
uses as a period start. -/
def jsMonthFirst (y mIdx : ℤ) : DateTimeRec :=
  let p := normYM y mIdx
  ⟨p.1, p.2, 1, 0, 0, 0⟩

/-- Embeds new Date(y, mIdx, 0, 23, 59, 59): day number 0 denotes the last
day of the preceding month under ECMAScript MakeDay, so this is the last
second of month index mIdx - 1. -/
def jsMonthLast (y mIdx : ℤ) : DateTimeRec :=
  let p := normYM y (mIdx - 1)
  ⟨p.1, p.2, daysInMonth p.1 p.2, 23, 59, 59⟩

/-- Embeds the period resolution of GET /api/summary (lines 26-47). Query
parameters are optional strings; an absent or empty parameter falls back to
the current year or month rendered to a string, and the fallback or given
string goes through parseInt. A NaN parse yields an invalid date, modelled
as none. The default branch uses new Date(0), the epoch, as start and the
current instant as end. -/
def resolveRange (period : String) (yearParam monthParam : Option String)
    (now : DateTimeRec) : Option DateTimeRec × Option DateTimeRec :=
  let yearStr := jsOrStr yearParam now.year.repr
  let monthStr := jsOrStr monthParam now.month.repr
  if period = "month" then
    match parseIntJS yearStr, parseIntJS monthStr with
    | some y, some m => (some (jsMonthFirst y (m - 1)), some (jsMonthLast y m))
    | _, _ => (none, none)
  else if period = "year" then
    match parseIntJS yearStr with
    | some y => (some (jsMonthFirst y 0), some ⟨quirkYear y, 12, 31, 23, 59, 59⟩)
    | none => (none, none)
  else (some ⟨1970, 1, 1, 0, 0, 0⟩, some now)

/-! ### Summary route: monthly trend (src/app/api/summary/route.ts) -/

/-- A calendar date at day granularity, standing for the date column of a
row. -/
structure CalDate where
  year : ℤ
  month : ℤ
  day : ℤ
deriving DecidableEq, Repr

/-- Date comparison backing the Prisma gte filter. -/
def dateLE (a b : CalDate) : Bool :=
  a.year < b.year ∨ (a.year = b.year ∧
    (a.month < b.month ∨ (a.month = b.month ∧ a.day ≤ b.day)))

/-- Embeds new Date(now.getFullYear(), now.getMonth() - 11, 1): the start of
the 12-month trend lookback window. -/
def trendWindowStart (now : CalDate) : CalDate :=
  let p := normYM now.year (now.month - 1 - 11)
  ⟨p.1, p.2, 1⟩

/-- Renders a 1-based month to the two digits it occupies in an ISO string. -/
def pad2 (m : ℤ) : String := if m < 10 then "0" ++ m.repr else m.repr

/-- Renders a year to the four digits it occupies in an ISO string. -/
def pad4 (y : ℤ) : String :=
  if y < 10 then "000" ++ y.repr
  else if y < 100 then "00" ++ y.repr
  else if y < 1000 then "0" ++ y.repr
  else y.repr

/-- Embeds date.toISOString().slice(0, 7): the YYYY-MM bucket key of a row. -/
def monthKeyOf (d : CalDate) : String := pad4 d.year ++ "-" ++ pad2 d.month

/-- One monthly trend bucket of the summary response. -/
structure TrendBucket where
  month : String
  total : ℚ
  count : ℕ
deriving DecidableEq, Repr

/-- Embeds one step of the monthlyData record accumulation: a new key is
appended (records preserve insertion order for such keys), an existing key
has its total and count bumped in place. -/
def addToBuckets (buckets : List TrendBucket) (key : String) (amt : ℚ) : List TrendBucket :=
  match buckets with
  | [] => [⟨key, amt, 1⟩]
  | b :: rest =>
    if b.month = key then ⟨b.month, b.total + amt, b.count + 1⟩ :: rest
    else b :: addToBuckets rest key amt

/-- Embeds the monthly-trend pipeline of GET /api/summary (lines 92-116):
filter rows to dates on or after the lookback window start, accumulate one
bucket per distinct YYYY-MM key, and sort by key descending (the source's
stable comparator sort; keys are pairwise distinct, so every comparison
sort yields this order). -/
def monthlyTrendOf (rows : List (ℚ × CalDate)) (now : CalDate) : List TrendBucket :=
  let filtered := rows.filter (fun r => dateLE (trendWindowStart now) r.2)
  let grouped := filtered.foldl (fun acc r => addToBuckets acc (monthKeyOf r.2) r.1) []
  List.insertionSort (fun a b => b.month ≤ a.month) grouped

/-- Membership of a date in the trailing 12-month window as the claim reads
it: between the window start and the last day of the current month. This
definition follows the spec's words, for comparison with the source's
filter. -/
def specInWindow (now d : CalDate) : Bool :=
  dateLE (trendWindowStart now) d ∧ dateLE d ⟨now.year, now.month, daysInMonth now.year now.month⟩

/-! ### Decimal rendering round-trip lemmas -/

/-- Most-significant-first decimal digits of a natural number; the reference
shape against which the fuel-driven core renderer is characterized. -/
def digitsRec (n : ℕ) : List Char :=
  if _h : n < 10 then [Nat.digitChar n]
  else digitsRec (n / 10) ++ [Nat.digitChar (n % 10)]
decreasing_by omega

theorem digitChar_isDigit {k : ℕ} (h : k < 10) : (Nat.digitChar k).isDigit = true := by
  interval_cases k <;> decide

theorem digitVal_digitChar {k : ℕ} (h : k < 10) : digitVal (Nat.digitChar k) = k := by
  interval_cases k <;> decide

theorem ne_of_isDigit {c d : Char} (h : c.isDigit = true) (hd : d.isDigit = false) :
    ¬(c = d) := by
  intro he
  rw [he, hd] at h
  exact Bool.false_ne_true h

theorem digitsRec_ne_nil (n : ℕ) : digitsRec n ≠ [] := by
  rw [digitsRec]
  split <;> simp

theorem digitsRec_digits (n : ℕ) : ∀ c ∈ digitsRec n, c.isDigit = true := by
  induction n using Nat.strong_induction_on with
  | _ n ih =>
    rw [digitsRec]
    split
    · intro c hc
      rw [List.mem_singleton] at hc
      subst hc
      exact digitChar_isDigit (by omega)
    · intro c hc
      rw [List.mem_append, List.mem_singleton] at hc
      rcases hc with hc | hc
      · exact ih (n / 10) (by omega) c hc
      · subst hc
        exact digitChar_isDigit (by omega)

theorem foldl_digitsRec (n : ℕ) : ∀ acc : ℕ,
    List.foldl (fun a c => a * 10 + digitVal c) acc (digitsRec n) =
      acc * 10 ^ (digitsRec n).length + n := by
  induction n using Nat.strong_induction_on with
  | _ n ih =>
    intro acc
    rw [digitsRec]
    split
    · rw [List.foldl_cons, List.foldl_nil, digitVal_digitChar (by omega)]
      simp
    · rw [List.foldl_append, ih (n / 10) (by omega) acc, List.foldl_cons, List.foldl_nil,
        digitVal_digitChar (by omega), List.length_append, List.length_singleton,
        pow_succ]
      have hmod := Nat.div_add_mod n 10
      ring_nf
      omega

theorem digitsToNat_digitsRec (n : ℕ) : digitsToNat (digitsRec n) = n := by
  have h := foldl_digitsRec n 0
  simpa [digitsToNat] using h

/-- A list is consumed whole by splitDigits when it is all digits and the
remainder does not begin with one. -/
theorem splitDigits_exact : ∀ (ds rest : List Char), (∀ c ∈ ds, c.isDigit = true) →
    (∀ c, rest.head? = some c → c.isDigit = false) →
    splitDigits (ds ++ rest) = (ds, rest) := by
  intro ds
  induction ds with
  | nil =>
    intro rest _ hrest
    cases rest with
    | nil => rfl
    | cons c cs =>
      rw [List.nil_append, splitDigits, hrest c rfl]
      simp
  | cons d ds' ih =>
    intro rest hds hrest
    have hd : d.isDigit = true := hds d (List.mem_cons_self d ds')
    rw [List.cons_append, splitDigits, hd,
      ih rest (fun c hc => hds c (List.mem_cons_of_mem d hc)) hrest]
    simp

theorem toDigitsCore_eq : ∀ (fuel n : ℕ) (ds : List Char), n < fuel →
    Nat.toDigitsCore 10 fuel n ds = digitsRec n ++ ds := by
  intro fuel
  induction fuel with
  | zero => intro n ds h; omega
  | succ fuel ih =>
    intro n ds h
    rw [Nat.toDigitsCore]
    by_cases h10 : n / 10 = 0
    · rw [if_pos h10, digitsRec, dif_pos (by omega)]
      have : n % 10 = n := Nat.mod_eq_of_lt (by omega)
      rw [this, List.singleton_append]
    · rw [if_neg h10, ih (n / 10) _ (by omega)]
      conv_rhs => rw [digitsRec]
      rw [dif_neg (show ¬n < 10 by omega), List.append_assoc, List.singleton_append]

theorem toList_repr (n : ℕ) : (Nat.repr n).toList = digitsRec n := by
  show (List.asString (Nat.toDigits 10 n)).toList = digitsRec n
  rw [Nat.toDigits, toDigitsCore_eq (n + 1) n [] (by omega), List.append_nil]
  rfl

theorem parseNatLead_digitsRec (n : ℕ) : parseNatLead (digitsRec n) = some n := by
  rw [parseNatLead]
  have hs : splitDigits (digitsRec n ++ []) = (digitsRec n, []) :=
    splitDigits_exact (digitsRec n) [] (digitsRec_digits n) (by intro c hc; cases hc)
  rw [List.append_nil] at hs
  rw [hs]
  obtain ⟨d, t, hdt⟩ := List.exists_cons_of_ne_nil (digitsRec_ne_nil n)
  rw [hdt]
  show some (digitsToNat (d :: t)) = some n
  rw [← hdt, digitsToNat_digitsRec]

theorem parseIntJS_repr (y : ℤ) : parseIntJS y.repr = some y := by
  cases y with
  | ofNat m =>
    show parseIntJS (Nat.repr m) = some (Int.ofNat m)
    rw [parseIntJS]
    obtain ⟨d, t, hdt⟩ := List.exists_cons_of_ne_nil (digitsRec_ne_nil m)
    have hd : d.isDigit = true := by
      apply digitsRec_digits m
      rw [hdt]
      exact List.mem_cons_self d t
    have h1 : ¬(d = '-') := ne_of_isDigit hd (by decide)
    have h2 : ¬(d = '+') := ne_of_isDigit hd (by decide)
    rw [toList_repr, hdt]
    show (if d = '-' then
        match parseNatLead t with
        | some n => some (-(n : ℤ))
        | none => none
      else if d = '+' then
        match parseNatLead t with
        | some n => some ((n : ℤ))
        | none => none
      else
        match parseNatLead (d :: t) with
        | some n => some ((n : ℤ))
        | none => none) = some (Int.ofNat m)
    rw [if_neg h1, if_neg h2, ← hdt, parseNatLead_digitsRec]
    show some ((m : ℤ)) = some (Int.ofNat m)
    rfl
  | negSucc m =>
    show parseIntJS ("-" ++ Nat.repr (m + 1)) = some (Int.negSucc m)
    rw [parseIntJS]
    have htl : ("-" ++ Nat.repr (m + 1)).toList = '-' :: digitsRec (m + 1) := by
      show ("-" ++ Nat.repr (m + 1)).data = '-' :: digitsRec (m + 1)
      rw [String.data_append, ← toList_repr]
      rfl
    rw [htl]
    show (if ('-' : Char) = '-' then
        match parseNatLead (digitsRec (m + 1)) with
        | some n => some (-(n : ℤ))
        | none => none
      else if ('-' : Char) = '+' then
        match parseNatLead (digitsRec (m + 1)) with
        | some n => some ((n : ℤ))
        | none => none
      else
        match parseNatLead ('-' :: digitsRec (m + 1)) with
        | some n => some ((n : ℤ))
        | none => none) = some (Int.negSucc m)
    rw [if_pos rfl, parseNatLead_digitsRec]
    show some (-((m + 1 : ℕ) : ℤ)) = some (Int.negSucc m)
    rw [Int.negSucc_eq]
    push_cast
    ring_nf

theorem toList_append (s t : String) : (s ++ t).toList = s.toList ++ t.toList :=
  String.data_append s t

theorem toList_repr_small {k : ℕ} (h : k < 10) : (Nat.repr k).toList = [Nat.digitChar k] := by
  rw [toList_repr, digitsRec, dif_pos h]

theorem padZeros_one {k : ℕ} (h : k < 10) : padZeros 1 (Nat.repr k) = Nat.repr k := by
  have hlen : (Nat.repr k).length = 1 := by
    show (Nat.repr k).data.length = 1
    rw [show (Nat.repr k).data = (Nat.repr k).toList from rfl, toList_repr_small h]
    rfl
  rw [padZeros, hlen]
  rfl

theorem parseFloatAbs_frac (a b : ℕ) (hb : b < 10) :
    parseFloatAbs (digitsRec a ++ '.' :: digitsRec b) =
      some ((a : ℚ) + (b : ℚ) / 10) := by
  have hs : splitDigits (digitsRec a ++ '.' :: digitsRec b) = (digitsRec a, '.' :: digitsRec b) :=
    splitDigits_exact _ _ (digitsRec_digits a)
      (by intro c hc; rw [List.head?_cons, Option.some_inj] at hc; rw [← hc]; decide)
  have hsb : splitDigits (digitsRec b) = (digitsRec b, []) := by
    have := splitDigits_exact (digitsRec b) [] (digitsRec_digits b) (by intro c hc; cases hc)
    simpa using this
  have hlb : (digitsRec b).length = 1 := by rw [digitsRec, dif_pos hb]; rfl
  rw [parseFloatAbs]
  simp only [hs, hsb]
  rw [if_neg (by simp [digitsRec_ne_nil a])]
  rw [digitsToNat_digitsRec, digitsToNat_digitsRec, hlb, pow_one]

theorem parseFloat_core (m : ℕ) :
    parseFloatAbs (digitsRec (m / 10) ++ '.' :: digitsRec (m % 10)) = some ((m : ℚ) / 10) := by
  rw [parseFloatAbs_frac (m / 10) (m % 10) (Nat.mod_lt m (by omega))]
  have hm : (10 * (m / 10) + m % 10 : ℕ) = m := Nat.div_add_mod m 10
  have hq : (10 : ℚ) * ((m / 10 : ℕ) : ℚ) + ((m % 10 : ℕ) : ℚ) = (m : ℚ) := by
    exact_mod_cast hm
  congr 1
  field_simp
  linarith

theorem toFixed_one_toList (q : ℚ) :
    (toFixed q 1).toList =
      (if q < 0 then ['-'] else []) ++
        (digitsRec ((⌊|q| * 10 + 1 / 2⌋).toNat / 10) ++
          '.' :: digitsRec ((⌊|q| * 10 + 1 / 2⌋).toNat % 10)) := by
  have hsgn : ((if q < 0 then "-" else "") : String).toList = (if q < 0 then ['-'] else []) := by
    split <;> rfl
  rw [toFixed]
  simp only [pow_one]
  rw [if_neg (by omega : ¬(1 : ℕ) = 0), padZeros_one (Nat.mod_lt _ (by omega))]
  simp only [toList_append, hsgn, toList_repr]
  have hdot : ("." : String).toList = ['.'] := rfl
  rw [hdot]
  simp [List.append_assoc]

theorem parseFloat_toFixed1 (q : ℚ) : parseFloatQ (toFixed q 1) = some (round1 q) := by
  have hm0 : (0 : ℤ) ≤ ⌊|q| * 10 + 1 / 2⌋ := by
    apply Int.floor_nonneg.mpr
    positivity
  have hcast : (((⌊|q| * 10 + 1 / 2⌋).toNat : ℚ)) = ((⌊|q| * 10 + 1 / 2⌋ : ℤ) : ℚ) := by
    exact_mod_cast congrArg (fun z : ℤ => (z : ℚ)) (Int.toNat_of_nonneg hm0)
  set m : ℕ := (⌊|q| * 10 + 1 / 2⌋).toNat with hmdef
  obtain ⟨d, t, hdt⟩ := List.exists_cons_of_ne_nil (digitsRec_ne_nil (m / 10))
  have hd : d.isDigit = true := by
    apply digitsRec_digits (m / 10)
    rw [hdt]
    exact List.mem_cons_self d t
  have h1 : ¬(d = '-') := ne_of_isDigit hd (by decide)
  have h2 : ¬(d = '+') := ne_of_isDigit hd (by decide)
  by_cases hq : q < 0
  · rw [parseFloatQ, toFixed_one_toList, if_pos hq, List.cons_append]
    show (if ('-' : Char) = '-' then
        (parseFloatAbs ((digitsRec (m / 10) ++ '.' :: digitsRec (m % 10)))).map (fun x => -x)
      else if ('-' : Char) = '+' then
        parseFloatAbs ((digitsRec (m / 10) ++ '.' :: digitsRec (m % 10)))
      else parseFloatAbs ('-' :: (digitsRec (m / 10) ++ '.' :: digitsRec (m % 10)))) =
      some (round1 q)
    rw [if_pos rfl, parseFloat_core, round1, if_pos hq]
    have habs : |q| = -q := abs_of_neg hq
    show some (-((m : ℚ) / 10)) = some (-((((⌊(-q) * 10 + 1 / 2⌋ : ℤ) : ℚ)) / 10))
    congr 1
    rw [hcast, habs]
  · rw [parseFloatQ, toFixed_one_toList, if_neg hq, List.nil_append, hdt, List.cons_append]
    show (if d = '-' then (parseFloatAbs (t ++ '.' :: digitsRec (m % 10))).map (fun x => -x)
      else if d = '+' then parseFloatAbs (t ++ '.' :: digitsRec (m % 10))
      else parseFloatAbs (d :: (t ++ '.' :: digitsRec (m % 10)))) = some (round1 q)
    rw [if_neg h1, if_neg h2, ← List.cons_append, ← hdt, parseFloat_core, round1, if_neg hq]
    have habs : |q| = q := abs_of_nonneg (by linarith [not_lt.mp hq])
    congr 1
    rw [hcast, habs]

/-! ### Supporting lemmas for the claim theorems -/

theorem aggAmount_eq_sum (l : List ℚ) : aggAmount l = l.sum := by
  rw [aggAmount, List.sum_eq_foldl]

theorem categoryAtIdx_mem (i : ℤ) : categoryAtIdx i ∈ validCategoryKeys := by
  rw [categoryAtIdx]
  split
  · exact List.get_mem _ _ _
  · decide

/-! ### Claim C1 -/

/-- C1 counterexample: with a single PENDING invoice of amount 100 and no
other entries, the code's netIncome is 100, while the claimed formula
income + paid-invoice total − expense total evaluates to 0: the summary
route sums every invoice into netIncome regardless of status. -/
theorem C1_counterexample :
    (summaryTotals [] [] [⟨100, InvoiceStatus.PENDING⟩]).netIncome = 100
    ∧ paidInvoiceTotal [⟨100, InvoiceStatus.PENDING⟩] = 0
    ∧ ¬((summaryTotals [] [] [⟨100, InvoiceStatus.PENDING⟩]).netIncome =
        (summaryTotals [] [] [⟨100, InvoiceStatus.PENDING⟩]).incomes.amount +
          paidInvoiceTotal [⟨100, InvoiceStatus.PENDING⟩] -
          (summaryTotals [] [] [⟨100, InvoiceStatus.PENDING⟩]).expenses.amount) := by
  have hfil : ([⟨100, InvoiceStatus.PENDING⟩] : List InvoiceRec).filter
      (fun i => i.status = InvoiceStatus.PAID) = [] := rfl
  refine ⟨?_, ?_, ?_⟩ <;>
    norm_num [summaryTotals, aggAmount, paidInvoiceTotal, hfil]

/-- C1 amended: for every entry set, the net income reported by the summary
computation equals totals[INCOME].amount plus the amount sum over all
invoices of the period (regardless of status) minus totals[EXPENSE].amount,
exactly. -/
theorem C1_net_income_all_invoices (expenses incomes : List ℚ) (invoices : List InvoiceRec) :
    (summaryTotals expenses incomes invoices).netIncome =
      incomes.sum + (invoices.map InvoiceRec.amount).sum - expenses.sum := by
  simp [summaryTotals, aggAmount_eq_sum]

/-! ### Claim C2 -/

/-- C2 counterexample: when the provider call fails, categorizeExpense does
not return one of the ten category keys; the error propagates to the caller
(the source awaits generateAI outside any try block), so the never-throws
guarantee is false. -/
theorem C2_counterexample :
    isValidKeyOutcome
      (categorizeExpense "dinner at a restaurant" "en"
        (Except.error "Failed to generate response from Groq")) = false
    ∧ categorizeExpense "dinner at a restaurant" "en"
        (Except.error "Failed to generate response from Groq") =
      Except.error "Failed to generate response from Groq" := ⟨rfl, rfl⟩

/-- C2 amended: whenever the provider call itself succeeds, categorizeExpense
returns one of the 10 enumerated category keys for every input and locale;
a response with no digit, with first integer 0, or with first integer above
10 yields the key "other". When the provider call fails, the error
propagates to the caller instead. -/
theorem C2_success_returns_valid_key (x locale response : String) :
    (∃ k ∈ validCategoryKeys, categorizeExpense x locale (Except.ok response) = Except.ok k)
    ∧ (firstNumberToken response.toList = none →
        categorizeExpense x locale (Except.ok response) = Except.ok "other")
    ∧ (∀ n, firstNumberToken response.toList = some n → n = 0 ∨ 11 ≤ n →
        categorizeExpense x locale (Except.ok response) = Except.ok "other") := by
  refine ⟨?_, ?_, ?_⟩
  · refine ⟨categoryAtIdx (match firstNumberToken response.toList with
      | some n => (n : ℤ) - 1
      | none => 9), categoryAtIdx_mem _, ?_⟩
    rw [categorizeExpense]
  · intro hnone
    rw [categorizeExpense, hnone]
    show Except.ok (categoryAtIdx 9) = Except.ok "other"
    rfl
  · intro n hsome hrange
    rw [categorizeExpense, hsome]
    show Except.ok (categoryAtIdx ((n : ℤ) - 1)) = Except.ok "other"
    have hlen : ((validCategoryKeys.length : ℕ) : ℤ) = 10 := by decide
    rw [categoryAtIdx, dif_neg (by simp only [hlen]; omega)]

/-- C2 witness: concrete instances of the amended claim, applying the
theorem at the provider responses 3, a digit-free string, and 42. -/
theorem C2_success_returns_valid_key_witness :
    (∃ k ∈ validCategoryKeys, categorizeExpense "taxi ride" "en" (Except.ok "3") = Except.ok k)
    ∧ categorizeExpense "taxi ride" "en" (Except.ok "no idea") = Except.ok "other"
    ∧ categorizeExpense "taxi ride" "en" (Except.ok "42") = Except.ok "other" :=
  ⟨(C2_success_returns_valid_key "taxi ride" "en" "3").1,
   (C2_success_returns_valid_key "taxi ride" "en" "no idea").2.1 (by decide),
   (C2_success_returns_valid_key "taxi ride" "en" "42").2.2 42 (by decide) (by decide)⟩

/-! ### Claim C4 -/

/-- C4: on a provider failure or unparseable response, parseExpenseFromText
returns the fallback: the first token matching \$?\d+\.?\d* as amount (none
when absent), the raw text as description, a null category and today's
date; in particular the input with a leading dollar amount of 25 yields
amount 25. -/
theorem C4_fallback_shape (text today : String) :
    parseExpenseFromText text today (Except.error ()) =
      { amount := scanAmountChars text.toList
      , description := text
      , category := none
      , date := today }
    ∧ parseExpenseFromText "$25 coffee" today (Except.error ()) =
      { amount := some 25, description := "$25 coffee", category := none, date := today } := by
  constructor
  · rfl
  · show parseExpenseFallback "$25 coffee" today = _
    rw [parseExpenseFallback]
    have h25 : scanAmountChars "$25 coffee".toList = some ((25 : ℕ) : ℚ) := rfl
    rw [h25]
    norm_num

/-! ### Claim C10 -/

/-- C10: on the success path of parseExpenseFromText, a provider amount of 0
(or an absent amount, both falsy) yields a null amount, and an absent
categoryNumber defaults to 10, so the category is "other". -/
theorem C10_success_falsy_defaults (text today : String) (d : Option String)
    (cn : Option ℤ) (dt : Option String) (a : Option ℚ) :
    (parseExpenseFromText text today (Except.ok ⟨some 0, d, cn, dt⟩)).amount = none
    ∧ (parseExpenseFromText text today (Except.ok ⟨none, d, cn, dt⟩)).amount = none
    ∧ (parseExpenseFromText text today (Except.ok ⟨a, d, none, dt⟩)).category = some "other" := by
  refine ⟨?_, ?_, ?_⟩
  · simp [parseExpenseFromText]
  · simp [parseExpenseFromText]
  · show some (categoryAtIdx (jsOrInt none 10 - 1)) = some "other"
    rfl

/-! ### Claim C8 -/

/-- C8 counterexample: an allowed request to the governed summary endpoint
produces the success response, which carries only the Cache-Control header:
none of the three rate-limit metadata headers is present, refuting the claim
that every governed response carries them. -/
theorem C8_counterexample :
    (summaryRouteResponse ⟨true, 29, 60⟩).status = 200
    ∧ headerLookup (summaryRouteResponse ⟨true, 29, 60⟩) "X-RateLimit-Limit" = none
    ∧ headerLookup (summaryRouteResponse ⟨true, 29, 60⟩) "X-RateLimit-Remaining" = none
    ∧ headerLookup (summaryRouteResponse ⟨true, 29, 60⟩) "X-RateLimit-Reset" = none := by
  refine ⟨rfl, ?_, ?_, ?_⟩ <;> decide

/-- C8 amended: the rate-limit metadata headers are attached exactly to the
denied (429) responses of the governed summary endpoint; allowed responses
carry only the caching header and no rate-limit metadata. -/
theorem C8_headers_only_on_denied (rem ri : ℤ) :
    (summaryRouteResponse ⟨false, rem, ri⟩).status = 429
    ∧ (summaryRouteResponse ⟨false, rem, ri⟩).headers =
        getRateLimitHeaders ⟨false, rem, ri⟩ RATE_LIMITS_heavy
    ∧ headerLookup (summaryRouteResponse ⟨false, rem, ri⟩) "X-RateLimit-Limit" =
        some (Nat.repr 30)
    ∧ headerLookup (summaryRouteResponse ⟨false, rem, ri⟩) "X-RateLimit-Remaining" =
        some rem.repr
    ∧ headerLookup (summaryRouteResponse ⟨false, rem, ri⟩) "X-RateLimit-Reset" =
        some ri.repr
    ∧ (summaryRouteResponse ⟨true, rem, ri⟩).headers =
        [("Cache-Control", "private, s-maxage=60, stale-while-revalidate=120")] := by
  refine ⟨rfl, rfl, ?_, ?_, ?_, rfl⟩ <;>
    simp [headerLookup, summaryRouteResponse, getRateLimitHeaders, RATE_LIMITS_heavy,
      List.find?]

/-! ### Claim C5 -/

theorem parseFloatQ_zero : parseFloatQ "0" = some 0 := rfl

theorem round1_zero : round1 0 = 0 := by
  rw [round1, if_neg (by norm_num)]
  have h : ⌊(0 : ℚ) * 10 + 1 / 2⌋ = 0 := by
    rw [Int.floor_eq_iff]
    norm_num
  rw [h]
  norm_num

/-- The value the fallback compares against its thresholds: the formatted
monthlyChange string re-parsed by parseFloat equals the true percentage
change rounded to one decimal place (0 when the previous month total is not
positive). -/
theorem monthlyChange_reparsed (p c : ℚ) :
    (parseFloatQ (monthlyChangeStr p c)).getD 0 =
      round1 (if 0 < p then (c - p) / p * 100 else 0) := by
  rw [monthlyChangeStr]
  by_cases hp : 0 < p
  · rw [if_pos hp, if_pos hp, parseFloat_toFixed1, Option.getD_some]
  · rw [if_neg hp, if_neg hp, parseFloatQ_zero, Option.getD_some, round1_zero]

/-- C5 counterexample: under a provider failure with previous month 2500 and
current month 3251, the true month-over-month change is 30.04 percent,
which exceeds 30 percent, yet the fallback report has an empty alerts
array: the source compares the change only after toFixed(1) has rounded it
to 30.0. -/
theorem C5_counterexample :
    ((3251 : ℚ) - 2500) / 2500 * 100 > 30
    ∧ (generateFinancialInsights
        { totalExpenses := 1500, totalIncome := 0, expensesByCategory := [],
          monthlyTrend := [], previousMonthTotal := 2500, currentMonthTotal := 3251 }
        (Except.error ())).alerts = [] := by
  constructor
  · norm_num
  · show (insightsFallback _).alerts = []
    rw [insightsFallback]
    show (if 30 < (parseFloatQ (monthlyChangeStr 2500 3251)).getD 0 then
        ["Spending increased significantly this month - review for unusual expenses"]
      else []) = []
    rw [monthlyChange_reparsed]
    have hinner : (if (0 : ℚ) < 2500 then ((3251 : ℚ) - 2500) / 2500 * 100 else 0) =
        ((3251 : ℚ) - 2500) / 2500 * 100 := if_pos (by norm_num)
    rw [hinner]
    have hr : round1 (((3251 : ℚ) - 2500) / 2500 * 100) = 30 := by
      rw [round1, if_neg (by norm_num)]
      have hfl : ⌊((3251 : ℚ) - 2500) / 2500 * 100 * 10 + 1 / 2⌋ = 300 := by
        rw [Int.floor_eq_iff]
        norm_num
      rw [hfl]
      norm_num
    rw [hr, if_neg (by norm_num)]

/-- C5 amended: under a provider failure the fallback report's summary embeds
the total-expense figure formatted with toFixed(2) (the substring 1500.00
when totalExpenses is 1500), its trends and recommendations are non-empty,
and its alerts array is non-empty exactly when the month-over-month change,
rounded to one decimal place by the toFixed(1)/parseFloat round trip (and
taken as 0 when the previous month total is not positive), exceeds 30. -/
theorem C5_fallback_report (d : InsightData) :
    (∃ pre post : String, (generateFinancialInsights d (Except.error ())).summary =
        pre ++ toFixed d.totalExpenses 2 ++ post)
    ∧ toFixed (1500 : ℚ) 2 = "1500.00"
    ∧ (generateFinancialInsights d (Except.error ())).trends ≠ []
    ∧ (generateFinancialInsights d (Except.error ())).recommendations ≠ []
    ∧ ((generateFinancialInsights d (Except.error ())).alerts ≠ [] ↔
        30 < round1 (if 0 < d.previousMonthTotal then
          (d.currentMonthTotal - d.previousMonthTotal) / d.previousMonthTotal * 100
        else 0)) := by
  refine ⟨?_, ?_, ?_, ?_, ?_⟩
  · refine ⟨"You\x27ve spent $",
      " with a savings rate of " ++
        (savingsRateStr d.totalIncome d.totalExpenses ++
          ("%. " ++
            (if 0 < (parseFloatQ (monthlyChangeStr d.previousMonthTotal
                d.currentMonthTotal)).getD 0 then
              "Your spending increased by " ++
                monthlyChangeStr d.previousMonthTotal d.currentMonthTotal ++
                "% this month."
            else
              "Your spending decreased by " ++
                jsNumRender1 |(parseFloatQ (monthlyChangeStr d.previousMonthTotal
                  d.currentMonthTotal)).getD 0| ++ "% this month."))), ?_⟩
    show (insightsFallback d).summary = _
    rw [insightsFallback]
    simp only [String.append_assoc]
  · have h1 : ⌊|(1500 : ℚ)| * 10 ^ 2 + 1 / 2⌋ = (150000 : ℤ) := by
      rw [show |(1500 : ℚ)| = 1500 from by norm_num, Int.floor_eq_iff]
      norm_num
    rw [toFixed, h1, if_neg (by norm_num)]
    rfl
  · show (insightsFallback d).trends ≠ []
    rw [insightsFallback]
    simp
  · show (insightsFallback d).recommendations ≠ []
    rw [insightsFallback]
    simp
  · show (insightsFallback d).alerts ≠ [] ↔ _
    rw [insightsFallback]
    show (if 30 < (parseFloatQ (monthlyChangeStr d.previousMonthTotal
        d.currentMonthTotal)).getD 0 then
        ["Spending increased significantly this month - review for unusual expenses"]
      else []) ≠ [] ↔ _
    rw [monthlyChange_reparsed]
    by_cases h : 30 < round1 (if 0 < d.previousMonthTotal then
        (d.currentMonthTotal - d.previousMonthTotal) / d.previousMonthTotal * 100
      else 0)
    · rw [if_pos h]
      simp [h]
    · rw [if_neg h]
      simp [h]

/-! ### Claim C6 -/

theorem repr_ne_empty (y : ℤ) : ¬(y.repr = "") := by
  intro h
  have hl := congrArg String.toList h
  cases y with
  | ofNat m =>
    rw [show (Int.ofNat m).repr = Nat.repr m from rfl, toList_repr] at hl
    exact digitsRec_ne_nil m hl
  | negSucc m =>
    rw [show (Int.negSucc m).repr = "-" ++ Nat.repr (m + 1) from rfl] at hl
    have hc : ("-" ++ Nat.repr (m + 1)).toList = '-' :: (Nat.repr (m + 1)).toList := rfl
    rw [hc] at hl
    exact List.cons_ne_nil _ _ hl

/-- C6 counterexample: with the month query parameter 13 (out of range) and
year 2025, on a current date in October 2025, the resolved start date is
January 1, 2026: the source does not substitute the current month for an
out-of-range value, it feeds parseInt output into the Date constructor,
which rolls the month overflow into the next year. -/
theorem C6_counterexample :
    (resolveRange "month" (some "2025") (some "13") ⟨2025, 10, 11, 8, 30, 0⟩).1 =
      some ⟨2026, 1, 1, 0, 0, 0⟩
    ∧ ¬((resolveRange "month" (some "2025") (some "13") ⟨2025, 10, 11, 8, 30, 0⟩).1 =
        some ⟨2025, 10, 1, 0, 0, 0⟩) := by
  constructor
  · decide
  · decide

/-- C6 amended: an absent (or empty) year or month parameter is substituted
with the current year and month, resolving to the current month's full
range; a present numeric parameter is never substituted even when out of
range: the month index is normalized by calendar rollover (floor division
into the year), and the resolver is a total function, never an error. -/
theorem C6_absent_params_substituted (now : DateTimeRec) (hy : 100 ≤ now.year)
    (hm1 : 1 ≤ now.month) (hm2 : now.month ≤ 12) (y m : ℤ) (hy2 : 100 ≤ y) :
    resolveRange "month" none none now =
      (some ⟨now.year, now.month, 1, 0, 0, 0⟩,
       some ⟨now.year, now.month, daysInMonth now.year now.month, 23, 59, 59⟩)
    ∧ resolveRange "month" (some y.repr) (some m.repr) now =
      (some ⟨y + (m - 1) / 12, (m - 1) % 12 + 1, 1, 0, 0, 0⟩,
       some ⟨y + (m - 1) / 12, (m - 1) % 12 + 1,
         daysInMonth (y + (m - 1) / 12) ((m - 1) % 12 + 1), 23, 59, 59⟩) := by
  have hqn : quirkYear now.year = now.year := by
    rw [quirkYear, if_neg (by omega)]
  have hqy : quirkYear y = y := by
    rw [quirkYear, if_neg (by omega)]
  constructor
  · rw [resolveRange]
    simp only [jsOrStr, if_pos rfl, parseIntJS_repr]
    show (some (jsMonthFirst now.year (now.month - 1)),
        some (jsMonthLast now.year now.month)) = _
    simp only [jsMonthFirst, jsMonthLast, normYM, hqn]
    have hdiv : (now.month - 1) / 12 = 0 := by omega
    have hmod : (now.month - 1) % 12 = now.month - 1 := by omega
    simp only [hdiv, hmod]
    have e1 : now.year + 0 = now.year := by omega
    have e2 : now.month - 1 + 1 = now.month := by omega
    simp only [e1, e2]
  · rw [resolveRange]
    simp only [jsOrStr, if_neg (repr_ne_empty y), if_neg (repr_ne_empty m),
      if_pos rfl, parseIntJS_repr]
    show (some (jsMonthFirst y (m - 1)), some (jsMonthLast y m)) = _
    simp only [jsMonthFirst, jsMonthLast, normYM, hqy]

/-- C6 witness: the amended claim applied at a concrete current date, with
the substitution case resolving to October 2025 and the out-of-range month
13 of 2025 rolling over to January 2026. -/
theorem C6_absent_params_substituted_witness :
    (100 ≤ (2025 : ℤ) ∧ 1 ≤ (10 : ℤ) ∧ (10 : ℤ) ≤ 12) ∧
    (resolveRange "month" none none ⟨2025, 10, 11, 8, 30, 0⟩ =
      (some ⟨2025, 10, 1, 0, 0, 0⟩,
       some ⟨2025, 10, daysInMonth 2025 10, 23, 59, 59⟩)
    ∧ resolveRange "month" (some (2025 : ℤ).repr) (some (13 : ℤ).repr)
        ⟨2025, 10, 11, 8, 30, 0⟩ =
      (some ⟨2025 + ((13 : ℤ) - 1) / 12, ((13 : ℤ) - 1) % 12 + 1, 1, 0, 0, 0⟩,
       some ⟨2025 + ((13 : ℤ) - 1) / 12, ((13 : ℤ) - 1) % 12 + 1,
         daysInMonth (2025 + ((13 : ℤ) - 1) / 12) (((13 : ℤ) - 1) % 12 + 1), 23, 59, 59⟩)) :=
  ⟨⟨by decide, by decide, by decide⟩,
   C6_absent_params_substituted ⟨2025, 10, 11, 8, 30, 0⟩ (by decide) (by decide) (by decide)
     2025 13 (by decide)⟩

/-! ### Rate limiter branch lemmas -/

theorem rlCleanup_skip (st : RLState) (now : ℤ)
    (h : now - st.lastCleanup < CLEANUP_INTERVAL) : rlCleanup st now = st := by
  rw [rlCleanup, if_pos h]

theorem rlCleanup_run (st : RLState) (now : ℤ)
    (h : ¬(now - st.lastCleanup < CLEANUP_INTERVAL)) :
    rlCleanup st now =
      { store := st.store.filter (fun p => !(p.2.resetTime < now)), lastCleanup := now } := by
  rw [rlCleanup, if_neg h]

theorem rateLimit_eq_fresh (identifier endpoint : String) (cfg : RateLimitConfig)
    (now : ℤ) (st : RLState)
    (hget : storeGet (rlCleanup st now).store (identifier ++ ":" ++ endpoint) = none) :
    rateLimit identifier endpoint cfg now st =
      (⟨true, (cfg.maxRequests : ℤ) - 1, (cfg.windowSeconds : ℤ)⟩,
       { rlCleanup st now with
          store := storeSet (rlCleanup st now).store (identifier ++ ":" ++ endpoint)
            ⟨1, now + (cfg.windowSeconds : ℤ) * 1000⟩ }) := by
  simp only [rateLimit]
  rw [hget]

theorem rateLimit_eq_expired (identifier endpoint : String) (cfg : RateLimitConfig)
    (now : ℤ) (st : RLState) (e : RateLimitEntry)
    (hget : storeGet (rlCleanup st now).store (identifier ++ ":" ++ endpoint) = some e)
    (hexp : e.resetTime < now) :
    rateLimit identifier endpoint cfg now st =
      (⟨true, (cfg.maxRequests : ℤ) - 1, (cfg.windowSeconds : ℤ)⟩,
       { rlCleanup st now with
          store := storeSet (rlCleanup st now).store (identifier ++ ":" ++ endpoint)
            ⟨1, now + (cfg.windowSeconds : ℤ) * 1000⟩ }) := by
  simp only [rateLimit]
  rw [hget]
  show (if e.resetTime < now then _ else _) = _
  rw [if_pos hexp]

theorem rateLimit_eq_denied (identifier endpoint : String) (cfg : RateLimitConfig)
    (now : ℤ) (st : RLState) (e : RateLimitEntry)
    (hget : storeGet (rlCleanup st now).store (identifier ++ ":" ++ endpoint) = some e)
    (hexp : ¬(e.resetTime < now)) (hmax : cfg.maxRequests ≤ e.count) :
    rateLimit identifier endpoint cfg now st =
      (⟨false, 0, (e.resetTime - now + 999) / 1000⟩, rlCleanup st now) := by
  simp only [rateLimit]
  rw [hget]
  show (if e.resetTime < now then _ else _) = _
  rw [if_neg hexp, if_pos hmax]

theorem rateLimit_eq_incr (identifier endpoint : String) (cfg : RateLimitConfig)
    (now : ℤ) (st : RLState) (e : RateLimitEntry)
    (hget : storeGet (rlCleanup st now).store (identifier ++ ":" ++ endpoint) = some e)
    (hexp : ¬(e.resetTime < now)) (hlt : e.count < cfg.maxRequests) :
    rateLimit identifier endpoint cfg now st =
      (⟨true, (cfg.maxRequests : ℤ) - ((e.count + 1 : ℕ) : ℤ),
        (e.resetTime - now + 999) / 1000⟩,
       { rlCleanup st now with
          store := storeSet (rlCleanup st now).store (identifier ++ ":" ++ endpoint)
            ⟨e.count + 1, e.resetTime⟩ }) := by
  simp only [rateLimit]
  rw [hget]
  show (if e.resetTime < now then _ else _) = _
  rw [if_neg hexp, if_neg (by omega)]

/-! ### Claim C3 -/

/-- C3: with maxRequests 3 and windowSeconds 60, four calls for one key
inside the window succeed, succeed, succeed, and are denied, and a fifth
call after the window has elapsed succeeds again with remaining 2; the
remaining values of the five calls are 2, 1, 0, 0, 2. -/
theorem C3_window_scenario (identifier endpoint : String) (t0 t1 t2 t3 t4 : ℤ)
    (_h01 : t0 ≤ t1) (h12 : t1 ≤ t2) (h23 : t2 ≤ t3) (h3w : t3 < t0 + 60000)
    (h4w : t0 + 60000 < t4) :
    ((rlRun identifier endpoint ⟨3, 60⟩ [t0, t1, t2, t3, t4] ⟨[], t0⟩).map
        RateLimitResult.success = [true, true, true, false, true])
    ∧ ((rlRun identifier endpoint ⟨3, 60⟩ [t0, t1, t2, t3, t4] ⟨[], t0⟩).map
        RateLimitResult.remaining = [2, 1, 0, 0, 2]) := by
  have hgetone : ∀ e : RateLimitEntry,
      storeGet [(identifier ++ ":" ++ endpoint, e)] (identifier ++ ":" ++ endpoint) =
        some e := by
    intro e
    simp [storeGet]
  have hsetone : ∀ (e e' : RateLimitEntry),
      storeSet [(identifier ++ ":" ++ endpoint, e)] (identifier ++ ":" ++ endpoint) e' =
        [(identifier ++ ":" ++ endpoint, e')] := by
    intro e e'
    simp [storeSet]
  have hstep1 : rateLimit identifier endpoint ⟨3, 60⟩ t0 ⟨[], t0⟩ =
      (⟨true, 2, 60⟩, ⟨[(identifier ++ ":" ++ endpoint, ⟨1, t0 + 60000⟩)], t0⟩) := by
    rw [rateLimit_eq_fresh identifier endpoint ⟨3, 60⟩ t0 ⟨[], t0⟩
      (by rw [rlCleanup_skip _ _ (show t0 - t0 < (60000 : ℤ) from by omega)]; rfl),
      rlCleanup_skip _ _ (show t0 - t0 < (60000 : ℤ) from by omega)]
    norm_num [storeSet]
  have hstep2 : rateLimit identifier endpoint ⟨3, 60⟩ t1
      ⟨[(identifier ++ ":" ++ endpoint, ⟨1, t0 + 60000⟩)], t0⟩ =
      (⟨true, 1, (t0 + 60000 - t1 + 999) / 1000⟩,
       ⟨[(identifier ++ ":" ++ endpoint, ⟨2, t0 + 60000⟩)], t0⟩) := by
    rw [rateLimit_eq_incr identifier endpoint ⟨3, 60⟩ t1 _ ⟨1, t0 + 60000⟩
      (by rw [rlCleanup_skip _ _ (show t1 - t0 < (60000 : ℤ) from by omega)]
          exact hgetone _)
      (by show ¬(t0 + 60000 < t1); omega) (by norm_num),
      rlCleanup_skip _ _ (show t1 - t0 < (60000 : ℤ) from by omega), hsetone]
    norm_num
  have hstep3 : rateLimit identifier endpoint ⟨3, 60⟩ t2
      ⟨[(identifier ++ ":" ++ endpoint, ⟨2, t0 + 60000⟩)], t0⟩ =
      (⟨true, 0, (t0 + 60000 - t2 + 999) / 1000⟩,
       ⟨[(identifier ++ ":" ++ endpoint, ⟨3, t0 + 60000⟩)], t0⟩) := by
    rw [rateLimit_eq_incr identifier endpoint ⟨3, 60⟩ t2 _ ⟨2, t0 + 60000⟩
      (by rw [rlCleanup_skip _ _ (show t2 - t0 < (60000 : ℤ) from by omega)]
          exact hgetone _)
      (by show ¬(t0 + 60000 < t2); omega) (by norm_num),
      rlCleanup_skip _ _ (show t2 - t0 < (60000 : ℤ) from by omega), hsetone]
    norm_num
  have hstep4 : rateLimit identifier endpoint ⟨3, 60⟩ t3
      ⟨[(identifier ++ ":" ++ endpoint, ⟨3, t0 + 60000⟩)], t0⟩ =
      (⟨false, 0, (t0 + 60000 - t3 + 999) / 1000⟩,
       ⟨[(identifier ++ ":" ++ endpoint, ⟨3, t0 + 60000⟩)], t0⟩) := by
    rw [rateLimit_eq_denied identifier endpoint ⟨3, 60⟩ t3
      ⟨[(identifier ++ ":" ++ endpoint, ⟨3, t0 + 60000⟩)], t0⟩ ⟨3, t0 + 60000⟩
      (by rw [rlCleanup_skip ⟨[(identifier ++ ":" ++ endpoint, ⟨3, t0 + 60000⟩)], t0⟩ t3
            (show t3 - t0 < (60000 : ℤ) from by omega)]
          exact hgetone _)
      (by show ¬(t0 + 60000 < t3); omega) (by norm_num),
      rlCleanup_skip ⟨[(identifier ++ ":" ++ endpoint, ⟨3, t0 + 60000⟩)], t0⟩ t3
        (show t3 - t0 < (60000 : ℤ) from by omega)]
  have hfil : List.filter (fun p : String × RateLimitEntry => !(p.2.resetTime < t4))
      [(identifier ++ ":" ++ endpoint, ⟨3, t0 + 60000⟩)] = [] := by
    simp [List.filter, show (t0 + 60000 : ℤ) < t4 from h4w]
  have hstep5 : rateLimit identifier endpoint ⟨3, 60⟩ t4
      ⟨[(identifier ++ ":" ++ endpoint, ⟨3, t0 + 60000⟩)], t0⟩ =
      (⟨true, 2, 60⟩, ⟨[(identifier ++ ":" ++ endpoint, ⟨1, t4 + 60000⟩)], t4⟩) := by
    rw [rateLimit_eq_fresh identifier endpoint ⟨3, 60⟩ t4
      ⟨[(identifier ++ ":" ++ endpoint, ⟨3, t0 + 60000⟩)], t0⟩
      (by rw [rlCleanup_run ⟨[(identifier ++ ":" ++ endpoint, ⟨3, t0 + 60000⟩)], t0⟩ t4
            (show ¬(t4 - t0 < (60000 : ℤ)) from by omega)]
          show storeGet (List.filter _ _) _ = none
          rw [hfil]
          rfl),
      rlCleanup_run ⟨[(identifier ++ ":" ++ endpoint, ⟨3, t0 + 60000⟩)], t0⟩ t4
        (show ¬(t4 - t0 < (60000 : ℤ)) from by omega), hfil]
    norm_num [storeSet]
  simp only [rlRun, hstep1, hstep2, hstep3, hstep4, hstep5]
  constructor
  · rfl
  · rfl

/-- C3 witness: the scenario applied at concrete call times 0, 1000, 2000,
3000 milliseconds (inside the window) and 70000 milliseconds (after the
window has elapsed). -/
theorem C3_window_scenario_witness :
    ((0 : ℤ) ≤ 1000 ∧ (1000 : ℤ) ≤ 2000 ∧ (2000 : ℤ) ≤ 3000 ∧
      (3000 : ℤ) < 0 + 60000 ∧ (0 : ℤ) + 60000 < 70000) ∧
    (((rlRun "user1" "summary" ⟨3, 60⟩ [0, 1000, 2000, 3000, 70000] ⟨[], 0⟩).map
        RateLimitResult.success = [true, true, true, false, true])
    ∧ ((rlRun "user1" "summary" ⟨3, 60⟩ [0, 1000, 2000, 3000, 70000] ⟨[], 0⟩).map
        RateLimitResult.remaining = [2, 1, 0, 0, 2])) :=
  ⟨⟨by decide, by decide, by decide, by decide, by decide⟩,
   C3_window_scenario "user1" "summary" 0 1000 2000 3000 70000
     (by decide) (by decide) (by decide) (by decide) (by decide)⟩

/-! ### Claim C9 -/

theorem storeGet_mem {s : List (String × RateLimitEntry)} {k : String} {e : RateLimitEntry} :
    storeGet s k = some e → (k, e) ∈ s := by
  induction s with
  | nil => intro h; cases h
  | cons p rest ih =>
    intro h
    rw [storeGet] at h
    by_cases hk : p.1 = k
    · rw [if_pos hk, Option.some_inj] at h
      rw [List.mem_cons]
      left
      rw [← hk, ← h]
    · rw [if_neg hk] at h
      exact List.mem_cons_of_mem p (ih h)

theorem storeSet_subset {s : List (String × RateLimitEntry)} {k : String}
    {e : RateLimitEntry} {q : String × RateLimitEntry} :
    q ∈ storeSet s k e → q = (k, e) ∨ q ∈ s := by
  induction s with
  | nil =>
    intro h
    rw [storeSet, List.mem_singleton] at h
    exact Or.inl h
  | cons p rest ih =>
    intro h
    rw [storeSet] at h
    by_cases hk : p.1 = k
    · rw [if_pos hk, List.mem_cons] at h
      rcases h with h | h
      · exact Or.inl h
      · exact Or.inr (List.mem_cons_of_mem p h)
    · rw [if_neg hk, List.mem_cons] at h
      rcases h with h | h
      · exact Or.inr (by rw [h]; exact List.mem_cons_self p rest)
      · rcases ih h with h' | h'
        · exact Or.inl h'
        · exact Or.inr (List.mem_cons_of_mem p h')

theorem StoreInv_cleanup {cfg : RateLimitConfig} {st : RLState} (now : ℤ)
    (h : StoreInv cfg st.store) : StoreInv cfg (rlCleanup st now).store := by
  rw [rlCleanup]
  split
  · exact h
  · intro q hq
    exact h q (List.mem_filter.mp hq).1

/-- One rateLimit call preserves the count invariant, returns a nonnegative
remaining, and on denial writes nothing beyond the cleanup sweep. -/
theorem rateLimit_inv (cfg : RateLimitConfig) (hmax : 1 ≤ cfg.maxRequests)
    (identifier endpoint : String) (now : ℤ) (st : RLState)
    (h : StoreInv cfg st.store) :
    0 ≤ (rateLimit identifier endpoint cfg now st).1.remaining
    ∧ StoreInv cfg (rateLimit identifier endpoint cfg now st).2.store
    ∧ ((rateLimit identifier endpoint cfg now st).1.success = false →
        (rateLimit identifier endpoint cfg now st).2 = rlCleanup st now) := by
  rcases hget : storeGet (rlCleanup st now).store (identifier ++ ":" ++ endpoint) with _ | e
  · rw [rateLimit_eq_fresh identifier endpoint cfg now st hget]
    refine ⟨by show (0 : ℤ) ≤ (cfg.maxRequests : ℤ) - 1; omega, ?_, by simp⟩
    intro q hq
    rcases storeSet_subset hq with rfl | hq'
    · exact ⟨le_refl 1, hmax⟩
    · exact StoreInv_cleanup now h q hq'
  · by_cases hexp : e.resetTime < now
    · rw [rateLimit_eq_expired identifier endpoint cfg now st e hget hexp]
      refine ⟨by show (0 : ℤ) ≤ (cfg.maxRequests : ℤ) - 1; omega, ?_, by simp⟩
      intro q hq
      rcases storeSet_subset hq with rfl | hq'
      · exact ⟨le_refl 1, hmax⟩
      · exact StoreInv_cleanup now h q hq'
    · by_cases hm : cfg.maxRequests ≤ e.count
      · rw [rateLimit_eq_denied identifier endpoint cfg now st e hget hexp hm]
        exact ⟨le_refl 0, StoreInv_cleanup now h, fun _ => rfl⟩
      · rw [rateLimit_eq_incr identifier endpoint cfg now st e hget hexp (by omega)]
        refine ⟨by show (0 : ℤ) ≤ (cfg.maxRequests : ℤ) - ((e.count + 1 : ℕ) : ℤ); omega,
          ?_, by simp⟩
        intro q hq
        rcases storeSet_subset hq with rfl | hq'
        · refine ⟨?_, ?_⟩
          · show 1 ≤ e.count + 1
            omega
          · show e.count + 1 ≤ cfg.maxRequests
            omega
        · exact StoreInv_cleanup now h q hq'

/-- C9 counterexample: the claim quantifies over every config, but with
maxRequests 0 the very first call creates a store entry of count 1 greater
than maxRequests and returns remaining -1, so the count bound and the
nonnegativity of remaining both fail without the maxRequests >= 1 premise. -/
theorem C9_counterexample :
    (rateLimit "u" "e" ⟨0, 60⟩ 0 ⟨[], 0⟩).1.remaining = -1
    ∧ storeGet (rateLimit "u" "e" ⟨0, 60⟩ 0 ⟨[], 0⟩).2.store ("u" ++ ":" ++ "e") =
        some ⟨1, 60000⟩
    ∧ ¬StoreInv ⟨0, 60⟩ (rateLimit "u" "e" ⟨0, 60⟩ 0 ⟨[], 0⟩).2.store := by
  refine ⟨by decide, by decide, ?_⟩
  intro h
  exact absurd (h ("u" ++ ":" ++ "e", ⟨1, 60000⟩) (by decide)).2 (by decide)

/-- C9 amended: for every config with maxRequests at least 1, every store
entry reachable from the empty store through any sequence of rateLimit
calls has a count between 1 and maxRequests; each call returns a
nonnegative remaining, and a denied call performs no store write: its
resulting state is exactly the post-sweep state, so the key's entry is
never mutated by a denial. -/
theorem C9_count_invariant (cfg : RateLimitConfig) (hmax : 1 ≤ cfg.maxRequests) :
    (∀ calls : List (String × String × ℤ),
      StoreInv cfg (rlRunAll cfg calls ⟨[], 0⟩).store)
    ∧ (∀ (identifier endpoint : String) (now : ℤ) (st : RLState), StoreInv cfg st.store →
        0 ≤ (rateLimit identifier endpoint cfg now st).1.remaining
        ∧ StoreInv cfg (rateLimit identifier endpoint cfg now st).2.store
        ∧ ((rateLimit identifier endpoint cfg now st).1.success = false →
            (rateLimit identifier endpoint cfg now st).2 = rlCleanup st now)) := by
  constructor
  · intro calls
    suffices h : ∀ st, StoreInv cfg st.store → StoreInv cfg (rlRunAll cfg calls st).store by
      exact h ⟨[], 0⟩ (fun q hq => absurd hq (List.not_mem_nil q))
    induction calls with
    | nil => intro st h; exact h
    | cons c cs ih =>
      intro st h
      rw [rlRunAll]
      exact ih _ (rateLimit_inv cfg hmax c.1 c.2.1 c.2.2 st h).2.1
  · intro identifier endpoint now st h
    exact rateLimit_inv cfg hmax identifier endpoint now st h

/-- C9 witness: the amended invariants applied to the heavy-endpoint style
config with maxRequests 3 on a one-call sequence and on a single call from
the empty store. -/
theorem C9_count_invariant_witness :
    1 ≤ (3 : ℕ) ∧
    StoreInv ⟨3, 60⟩ (rlRunAll ⟨3, 60⟩ [("u", "e", 5)] ⟨[], 0⟩).store ∧
    (0 ≤ (rateLimit "u" "e" ⟨3, 60⟩ 5 ⟨[], 0⟩).1.remaining
     ∧ StoreInv ⟨3, 60⟩ (rateLimit "u" "e" ⟨3, 60⟩ 5 ⟨[], 0⟩).2.store
     ∧ ((rateLimit "u" "e" ⟨3, 60⟩ 5 ⟨[], 0⟩).1.success = false →
         (rateLimit "u" "e" ⟨3, 60⟩ 5 ⟨[], 0⟩).2 = rlCleanup ⟨[], 0⟩ 5)) :=
  ⟨by decide,
   (C9_count_invariant ⟨3, 60⟩ (by decide)).1 [("u", "e", 5)],
   (C9_count_invariant ⟨3, 60⟩ (by decide)).2 "u" "e" 5 ⟨[], 0⟩
     (fun q hq => absurd hq (List.not_mem_nil q))⟩

/-! ### Claim C7 -/

theorem addToBuckets_sum (b : List TrendBucket) (key : String) (amt : ℚ) :
    ((addToBuckets b key amt).map TrendBucket.total).sum =
      (b.map TrendBucket.total).sum + amt := by
  induction b with
  | nil => simp [addToBuckets]
  | cons p rest ih =>
    rw [addToBuckets]
    by_cases hk : p.month = key
    · rw [if_pos hk]
      simp [add_comm, add_assoc, add_left_comm]
    · rw [if_neg hk]
      simp only [List.map_cons, List.sum_cons, ih]
      ring

theorem addToBuckets_keys (b : List TrendBucket) (key : String) (amt : ℚ) :
    (addToBuckets b key amt).map TrendBucket.month =
      if key ∈ b.map TrendBucket.month then b.map TrendBucket.month
      else b.map TrendBucket.month ++ [key] := by
  induction b with
  | nil => simp [addToBuckets]
  | cons p rest ih =>
    rw [addToBuckets]
    by_cases hk : p.month = key
    · rw [if_pos hk]
      simp [hk]
    · rw [if_neg hk]
      simp only [List.map_cons, ih]
      by_cases hmem : key ∈ rest.map TrendBucket.month
      · rw [if_pos hmem, if_pos (by rw [List.mem_cons]; exact Or.inr hmem)]
      · rw [if_neg hmem, if_neg (by
          rw [List.mem_cons]
          rintro (h | h)
          · exact hk h.symm
          · exact hmem h)]
        rw [List.cons_append]

theorem addToBuckets_nodup {b : List TrendBucket} {key : String} {amt : ℚ}
    (h : (b.map TrendBucket.month).Nodup) :
    ((addToBuckets b key amt).map TrendBucket.month).Nodup := by
  rw [addToBuckets_keys]
  by_cases hmem : key ∈ b.map TrendBucket.month
  · rw [if_pos hmem]
    exact h
  · rw [if_neg hmem]
    refine List.Nodup.append h (List.nodup_singleton key) ?_
    intro a ha hb
    rw [List.mem_singleton] at hb
    subst hb
    exact hmem ha

theorem addToBuckets_mem_keys (b : List TrendBucket) (key : String) (amt : ℚ) (k : String) :
    k ∈ (addToBuckets b key amt).map TrendBucket.month ↔
      k = key ∨ k ∈ b.map TrendBucket.month := by
  rw [addToBuckets_keys]
  by_cases hmem : key ∈ b.map TrendBucket.month
  · rw [if_pos hmem]
    constructor
    · exact Or.inr
    · rintro (rfl | h)
      · exact hmem
      · exact h
  · rw [if_neg hmem]
    rw [List.mem_append, List.mem_singleton]
    exact or_comm

theorem foldl_buckets_sum (rows : List (ℚ × CalDate)) : ∀ b : List TrendBucket,
    ((rows.foldl (fun acc r => addToBuckets acc (monthKeyOf r.2) r.1) b).map
        TrendBucket.total).sum =
      (b.map TrendBucket.total).sum + (rows.map Prod.fst).sum := by
  induction rows with
  | nil => intro b; simp
  | cons r rs ih =>
    intro b
    rw [List.foldl_cons, ih, addToBuckets_sum]
    simp only [List.map_cons, List.sum_cons]
    ring

theorem foldl_buckets_keys (rows : List (ℚ × CalDate)) : ∀ b : List TrendBucket,
    (b.map TrendBucket.month).Nodup →
    (((rows.foldl (fun acc r => addToBuckets acc (monthKeyOf r.2) r.1) b).map
        TrendBucket.month).Nodup
    ∧ ∀ k, k ∈ (rows.foldl (fun acc r => addToBuckets acc (monthKeyOf r.2) r.1) b).map
          TrendBucket.month ↔
        k ∈ b.map TrendBucket.month ∨ ∃ r ∈ rows, monthKeyOf r.2 = k) := by
  induction rows with
  | nil =>
    intro b h
    exact ⟨h, fun k => by simp⟩
  | cons r rs ih =>
    intro b h
    rw [List.foldl_cons]
    obtain ⟨h1, h2⟩ := ih (addToBuckets b (monthKeyOf r.2) r.1) (addToBuckets_nodup h)
    refine ⟨h1, fun k => ?_⟩
    rw [h2 k, addToBuckets_mem_keys]
    constructor
    · rintro ((rfl | hb) | ⟨r', hr', hk⟩)
      · exact Or.inr ⟨r, List.mem_cons_self r rs, rfl⟩
      · exact Or.inl hb
      · exact Or.inr ⟨r', List.mem_cons_of_mem r hr', hk⟩
    · rintro (hb | ⟨r', hr', hk⟩)
      · exact Or.inl (Or.inr hb)
      · rw [List.mem_cons] at hr'
        rcases hr' with rfl | hr'
        · exact Or.inl (Or.inl hk.symm)
        · exact Or.inr ⟨r', hr', hk⟩

instance : IsTotal TrendBucket (fun a b => b.month ≤ a.month) :=
  ⟨fun a b => le_total b.month a.month⟩

instance : IsTrans TrendBucket (fun a b => b.month ≤ a.month) :=
  ⟨fun _ _ _ hab hbc => le_trans hbc hab⟩

/-- C7 counterexample: on a current date of October 11, 2025, a single
expense dated January 1, 2027 lies outside the trailing 12-month window
(November 2024 through October 2025) under the claim's reading, yet the
source's gte-only filter keeps it, so the bucket sum is 100 while the sum
over entries inside the window is 0. -/
theorem C7_counterexample :
    ((monthlyTrendOf [(100, ⟨2027, 1, 1⟩)] ⟨2025, 10, 11⟩).map TrendBucket.total).sum = 100
    ∧ ((([(100, ⟨2027, 1, 1⟩)] : List (ℚ × CalDate)).filter
        (fun r => specInWindow ⟨2025, 10, 11⟩ r.2)).map Prod.fst).sum = 0
    ∧ (100 : ℚ) ≠ 0 := by
  refine ⟨?_, ?_, by norm_num⟩
  · rw [show monthlyTrendOf [(100, ⟨2027, 1, 1⟩)] ⟨2025, 10, 11⟩ =
      [⟨monthKeyOf ⟨2027, 1, 1⟩, 100, 1⟩] from rfl]
    simp
  · rw [show (([(100, ⟨2027, 1, 1⟩)] : List (ℚ × CalDate)).filter
      (fun r => specInWindow ⟨2025, 10, 11⟩ r.2)) = [] from rfl]
    simp

/-- C7 amended: for every entry list and current date, the sum of amount
over the emitted monthly-trend buckets equals the sum of amounts of the
entries whose date is on or after the window start (the source applies no
upper bound, so future-dated entries are also counted); the bucket keys are
pairwise distinct with exactly one bucket per month that has a filtered
entry, and the buckets are sorted by monthKey descending. -/
theorem C7_trend_bucket_properties (rows : List (ℚ × CalDate)) (now : CalDate) :
    ((monthlyTrendOf rows now).map TrendBucket.total).sum =
      ((rows.filter (fun r => dateLE (trendWindowStart now) r.2)).map Prod.fst).sum
    ∧ ((monthlyTrendOf rows now).map TrendBucket.month).Nodup
    ∧ (∀ k, k ∈ (monthlyTrendOf rows now).map TrendBucket.month ↔
        ∃ r ∈ rows.filter (fun r => dateLE (trendWindowStart now) r.2),
          monthKeyOf r.2 = k)
    ∧ List.Sorted (fun a b : TrendBucket => b.month ≤ a.month) (monthlyTrendOf rows now) := by
  have hperm :
      (monthlyTrendOf rows now).Perm
        ((rows.filter (fun r => dateLE (trendWindowStart now) r.2)).foldl
          (fun acc r => addToBuckets acc (monthKeyOf r.2) r.1) []) :=
    List.perm_insertionSort _ _
  have hkeys := foldl_buckets_keys
    (rows.filter (fun r => dateLE (trendWindowStart now) r.2)) [] (by simp)
  refine ⟨?_, ?_, ?_, ?_⟩
  · rw [(hperm.map TrendBucket.total).sum_eq, foldl_buckets_sum]
    simp
  · exact ((hperm.map TrendBucket.month).nodup_iff).mpr hkeys.1
  · intro k
    rw [(hperm.map TrendBucket.month).mem_iff, hkeys.2 k]
    simp
  · exact List.sorted_insertionSort _ _
